import Mathlib

/-!
# Verification of `vim_color_term.py`

A shallow embedding of the color-extraction core of `vim_color_term.py`:
the named-color table loader (`load_vim_named_colors`), the perceptual
color distance (`color_distance`), and the theme-file extractor/finalizer
(`generate_options`), together with theorems settling the specification
claims about them.

Modelling conventions:
* Python strings are Lean `String`s; theme files and the rgb resource are
  `List String` of newline-free lines (Python's line iteration keeps the
  trailing newline, but none of the regexes involved can match or capture
  it, so stripping it is behaviour-preserving).
* Python `re` patterns are hand-compiled to deterministic matchers that
  implement the backtracking semantics of the concrete patterns used by
  the program (greedy `.*`, lazy `.*?`, greedy `+`/`{6}`).
* Machine arithmetic: all channel values are `Nat` (≤ 255); the only
  float, `math.sqrt`, is eliminated exactly — the squared distance is a
  natural number, and `sqrt S < 10.0` holds iff `S < 100` (proved below
  as `sqrt_lt_ten_iff`), with no rounding subtlety since IEEE sqrt is
  correctly rounded and 100 is a perfect square.
* Python exceptions become an explicit error type `GenError`.
-/

/-- Python `\s` on the ASCII range (none of the inputs involved are
non-ASCII whitespace). -/
def isPySpace (c : Char) : Bool :=
  c = ' ' || c = '\t' || c = '\n' || c = '\r' || c = '\x0b' || c = '\x0c'

/-- Python `\w` on the ASCII range: letters, digits and underscore. -/
def isWordCh (c : Char) : Bool :=
  c.isAlpha || c.isDigit || c = '_'

/-- A character of the capture class `[#\w]` of the slot patterns. -/
def isCapCh (c : Char) : Bool :=
  c = '#' || isWordCh c

/-- A lowercase hexadecimal digit, the class `[0-9a-f]`. -/
def isLowerHexCh (c : Char) : Bool :=
  c.isDigit || ('a' ≤ c && c ≤ 'f')

/-- Any hexadecimal digit, as accepted by Python `int(_, 16)`. -/
def isHexCh (c : Char) : Bool :=
  c.isDigit || ('a' ≤ c && c ≤ 'f') || ('A' ≤ c && c ≤ 'F')

/-!
## The slot patterns

Every pattern in `MAPPINGS` has the shape `.*KEYWORD.*?KEY=([#\w]+).*`
and is applied with `re.match` (anchored at the start, prefix match).
Its backtracking semantics on a newline-free line:

* the leading greedy `.*` places `KEYWORD` at the *rightmost* occurrence
  from which the rest of the pattern can still match;
* the lazy `.*?` then places `KEY` at the *leftmost* occurrence after
  that keyword that is followed by at least one `[#\w]` character;
* the greedy `([#\w]+)` captures the maximal run of `[#\w]` characters;
* the trailing `.*` always succeeds and constrains nothing.
-/

/-- Scan left to right for the first occurrence of `key` that is followed
by a nonempty `[#\w]` run; return that maximal run (the capture of
`KEY([#\w]+)` under a lazy prefix). -/
def matchTail (key : List Char) : List Char → Option (List Char)
  | [] => none
  | c :: cs =>
    if key.isPrefixOf (c :: cs) then
      let run := ((c :: cs).drop key.length).takeWhile isCapCh
      if run.isEmpty then matchTail key cs else some run
    else matchTail key cs

/-- Scan for the *last* occurrence of `kw` from which `matchTail key`
succeeds on the remainder (the greedy leading `.*` prefers the rightmost
viable keyword position). -/
def lastKw (kw key : List Char) : List Char → Option (List Char)
  | [] => none
  | c :: cs =>
    match lastKw kw key cs with
    | some r => some r
    | none =>
      if kw.isPrefixOf (c :: cs) then matchTail key ((c :: cs).drop kw.length)
      else none

/-- Match one theme-file line against the pattern
`.*kw.*?key([#\w]+).*`, returning the captured color reference. -/
def matchSlot (kw key : String) (line : String) : Option String :=
  (lastKw kw.toList key.toList line.toList).map (fun l => String.mk l)

/-- The `MAPPINGS` table: slot name, pattern keyword, pattern key.
`(s, kw, key)` stands for the source regex `.*kw.*?key([#\w]+).*`. -/
def MAPPINGS : List (String × String × String) :=
  [("foreground", "Normal", "guifg="),
   ("background", "Normal", "guibg="),
   ("color0", "Comment", "guifg="),
   ("color1", "ErrorMsg", "guifg="),
   ("color2", "Type", "guifg="),
   ("color3", "WarningMsg", "guifg="),
   ("color4", "PreProc", "guifg="),
   ("color5", "Special", "guifg="),
   ("color6", "Search", "guifg="),
   ("color7", "Todo", "guifg="),
   ("color8", "Comment", "guifg="),
   ("color9", "ErrorMsg", "guifg="),
   ("color10", "Type", "guifg="),
   ("color11", "WarningMsg", "guifg="),
   ("color12", "PreProc", "guifg="),
   ("color13", "Special", "guifg="),
   ("color14", "Search", "guifg="),
   ("color15", "Todo", "guifg=")]

/-- Python `str.lower()` on the ASCII range. -/
def pyLower (s : String) : String :=
  String.mk (s.toList.map Char.toLower)

/-- `re.match('#([0-9a-f]{6})', v)`: a *prefix* match — `v` must start
with `#` followed by at least six lowercase hex digits; the first six are
captured, anything after them is ignored. -/
def hexMatch (s : String) : Option String :=
  match s.toList with
  | '#' :: cs =>
    let h := cs.take 6
    if h.length = 6 && h.all isLowerHexCh then some (String.mk h) else none
  | _ => none

/-!
## Named color table loader (`load_vim_named_colors`)
-/

/-- Decimal digits to a natural number (Python `int` of a `\d+` capture). -/
def digitsToNat (cs : List Char) : Nat :=
  cs.foldl (fun acc c => 10 * acc + (c.toNat - '0'.toNat)) 0

/-- Match one rgb.txt line against `^\s*(\d+)\s+(\d+)\s+(\d+)\s+(.*)$`.
The pattern is deterministic (`\d` and `\s` are disjoint, so no
backtracking arises): optional whitespace, three whitespace-separated
integers, at least one whitespace, and the greedy `(.*)` takes the whole
rest of the line as the name (it may be empty and may contain spaces). -/
def parseRgbLine (line : String) : Option (Nat × Nat × Nat × String) :=
  let l0 := line.toList.dropWhile isPySpace
  let d1 := l0.takeWhile Char.isDigit
  let r1 := l0.dropWhile Char.isDigit
  let s1 := r1.takeWhile isPySpace
  let l1 := r1.dropWhile isPySpace
  let d2 := l1.takeWhile Char.isDigit
  let r2 := l1.dropWhile Char.isDigit
  let s2 := r2.takeWhile isPySpace
  let l2 := r2.dropWhile isPySpace
  let d3 := l2.takeWhile Char.isDigit
  let r3 := l2.dropWhile Char.isDigit
  let s3 := r3.takeWhile isPySpace
  let name := r3.dropWhile isPySpace
  if d1.isEmpty || s1.isEmpty || d2.isEmpty || s2.isEmpty ||
     d3.isEmpty || s3.isEmpty then none
  else some (digitsToNat d1, digitsToNat d2, digitsToNat d3, String.mk name)

/-- Lowercase hex digit character for `n < 16`. -/
def hexDigitCh (n : Nat) : Char :=
  if n < 10 then Char.ofNat ('0'.toNat + n) else Char.ofNat ('a'.toNat + (n - 10))

/-- Hex digits, most significant first, with explicit fuel (`fuel ≥ n`
suffices since the argument at least halves each step; structural in the
fuel so that it evaluates inside the kernel). -/
def hexDigitsAux : Nat → Nat → List Char
  | 0, _ => []
  | fuel + 1, n =>
    if n = 0 then []
    else hexDigitsAux fuel (n / 16) ++ [hexDigitCh (n % 16)]

/-- Python `'{0:02x}'.format(n)`: lowercase hex, zero-padded to width 2. -/
def pyHex2 (n : Nat) : String :=
  let ds := if n = 0 then ['0'] else hexDigitsAux (n + 1) n
  String.mk (List.replicate (2 - ds.length) '0' ++ ds)

/-- The value the loader stores for a record whose *first* integer is
`r`: the format string `'{0:02x}{0:02x}{0:02x}'` renders argument 0 three
times, so all three channels come from `r` alone. -/
def tripleHex (r : Nat) : String :=
  pyHex2 r ++ pyHex2 r ++ pyHex2 r

/-- One iteration of the loader: a matching line overwrites any earlier
binding of the same lowercased name (Python dict assignment); prepending
to the association list gives the same last-write-wins lookup. -/
def loadStep (tbl : List (String × String)) (line : String) :
    List (String × String) :=
  match parseRgbLine line with
  | some (r, _, _, name) => (pyLower name, tripleHex r) :: tbl
  | none => tbl

/-- `load_vim_named_colors`, as a function of the rgb.txt lines. -/
def loadVimNamedColors (lines : List String) : List (String × String) :=
  lines.foldl loadStep []

/-!
## Perceptual color distance (`color_distance`)
-/

/-- Python `int(s, 16)` restricted to nonempty hex-digit strings, the
only shapes reaching it in this program (slices of 6-hex color values). -/
def pyIntHex (cs : List Char) : Option Nat :=
  if cs.isEmpty || !(cs.all isHexCh) then none
  else some (cs.foldl (fun acc c =>
    16 * acc + (if c.isDigit then c.toNat - '0'.toNat
                else if 'a' ≤ c then c.toNat - 'a'.toNat + 10
                else c.toNat - 'A'.toNat + 10)) 0)

/-- The Python slice `s[i:i+2]` of a color string's characters. -/
def slice2 (l : List Char) (i : Nat) : List Char :=
  (l.drop i).take 2

/-- The quantity under the square root in `color_distance`, a natural
number.  With channels `a = (a0,a1,a2)`, `b = (b0,b1,b2)`:
`rmean = (a0+b0)/2` is a Python float, and `int(512+rmean)` truncates to
`512 + (a0+b0)/2` (floor) while `int(767-rmean)` truncates to
`767 - ⌈(a0+b0)/2⌉`; `x >> 8` on the nonnegative products is division by
256.  A `ValueError` from `int(_,16)` (a channel slice that is empty or
not hex digits, e.g. when a deferred `'fg'`/`'bg'` marker leaks into the
distance computation) is `none`. -/
def colorDistSq (a b : String) : Option Nat :=
  match pyIntHex (slice2 a.toList 0), pyIntHex (slice2 a.toList 2),
        pyIntHex (slice2 a.toList 4), pyIntHex (slice2 b.toList 0),
        pyIntHex (slice2 b.toList 2), pyIntHex (slice2 b.toList 4) with
  | some a0, some a1, some a2, some b0, some b1, some b2 =>
    some ((512 + (a0 + b0) / 2) * ((a0 : Int) - b0).natAbs ^ 2 / 256 +
          4 * ((a1 : Int) - b1).natAbs ^ 2 +
          (767 - (a0 + b0 + 1) / 2) * ((a2 : Int) - b2).natAbs ^ 2 / 256)
  | _, _, _, _, _, _ => none

/-!
## The extractor/finalizer (`generate_options`)
-/

/-- The exceptions `generate_options` can raise.  `missingFgBg` mirrors
`raise Exception('no background or foreground color')`, guarded by
`background_color is None or foreground_color is None` — dict values here
are always `str`, never `None`, so the guard can never fire and the
constructor is unreachable; it is kept to document the dead branch. -/
inductive GenError where
  | invalidHex (v : String)
  | keyError (k : String)
  | missingFgBg
  | valueErr
  | invalidFormat
deriving Repr, DecidableEq

/-- Resolve an already-lowercased color reference `v` (the source applies
`.lower()` to the capture before all checks): named-color lookup first,
then the deferred `'fg'`/`'bg'` markers, then a direct `#`-hex literal,
else `raise Exception('invalid hex: ...')`. -/
def resolveColor (tbl : List (String × String)) (v : String) :
    Except GenError String :=
  match tbl.lookup v with
  | some h => .ok h
  | none =>
    if v = "fg" ∨ v = "bg" then .ok v
    else match hexMatch v with
      | some h => .ok h
      | none => .error (.invalidHex v)

/-- Scan the theme file for the given slot: the capture of the first line
matching the slot's pattern (the source `break`s after the first match). -/
def extractSlot (lines : List String) (kw key : String) : Option String :=
  lines.findSome? (fun line => matchSlot kw key line)

/-- The extraction loop of `generate_options` over a mappings list: each
slot contributes its resolved first match (absent slots are skipped); the
first resolution failure aborts the whole attempt. -/
def extractList (tbl : List (String × String)) (lines : List String) :
    List (String × String × String) → Except GenError (List (String × String))
  | [] => .ok []
  | m :: rest =>
    match extractSlot lines m.2.1 m.2.2 with
    | none => extractList tbl lines rest
    | some raw =>
      match resolveColor tbl (pyLower raw) with
      | .error e => .error e
      | .ok v => (extractList tbl lines rest).map (fun rs => (m.1, v) :: rs)

/-- The extraction pass over the real `MAPPINGS`, producing the
`resource_hex_values` mapping in insertion order. -/
def extract (tbl : List (String × String)) (lines : List String) :
    Except GenError (List (String × String)) :=
  extractList tbl lines MAPPINGS

/-- The body of the finalization loop for one entry, given the captured
`background_color` / `foreground_color`.  `sqrt S < 10.0` is computed as
`S < 100` (exact: see `sqrt_lt_ten_iff`). -/
def adjustVal (bc fc : String) (resource color : String) :
    Except GenError String :=
  if color = "fg" then .ok fc
  else if color = "bg" then .ok bc
  else if resource ≠ "background" then
    match colorDistSq color bc with
    | none => .error .valueErr
    | some d => .ok (if d < 100 then fc else color)
  else .ok color

/-- The finalization loop over the entries of `resource_hex_values`.
Each iteration rewrites only the value of the entry being visited, and
`foreground_color` / `background_color` were captured before the loop, so
the loop is this pointwise traversal; the first exception aborts. -/
def adjustEntries (bc fc : String) :
    List (String × String) → Except GenError (List (String × String))
  | [] => .ok []
  | p :: rest =>
    match adjustVal bc fc p.1 p.2 with
    | .error e => .error e
    | .ok v => (adjustEntries bc fc rest).map (fun m => (p.1, v) :: m)

/-- The finalizer: look up `background` then `foreground` (a missing key
is a Python `KeyError`, raised before anything else); the source's guard
`if background_color is None or foreground_color is None` is unreachable
(dict values are always strings, never `None`) and is omitted; then
rewrite every entry in place; the trailing emptiness check mirrors
`if not resource_hex_values: raise Exception('invalid format')` (also
unreachable: the `background` lookup already succeeded). -/
def finalizeColors (rs : List (String × String)) :
    Except GenError (List (String × String)) :=
  match rs.lookup "background" with
  | none => .error (.keyError "background")
  | some bc =>
    match rs.lookup "foreground" with
    | none => .error (.keyError "foreground")
    | some fc =>
      match adjustEntries bc fc rs with
      | .error e => .error e
      | .ok m => if m.isEmpty then .error .invalidFormat else .ok m

/-- Extraction followed by finalization: the finalized slot mapping. -/
def genColors (tbl : List (String × String)) (lines : List String) :
    Except GenError (List (String × String)) :=
  match extract tbl lines with
  | .error e => .error e
  | .ok rs => finalizeColors rs

/-- Code-point lexicographic `≤` on character lists: Python's `<=` on
strings (all strings involved are ASCII). -/
def lexLeCh : List Char → List Char → Bool
  | [], _ => true
  | _ :: _, [] => false
  | a :: as, b :: bs =>
    if a.toNat < b.toNat then true
    else if b.toNat < a.toNat then false
    else lexLeCh as bs

/-- Python's string `<=`, as a decidable proposition. -/
def pyStrLe (a b : String) : Prop := lexLeCh a.toList b.toList = true

instance : DecidableRel pyStrLe := fun a b => by
  unfold pyStrLe; infer_instance

/-- `sorted()` on a list of strings.  `pyStrLe` is total, transitive and
antisymmetric (proved below), so the ascending sorted permutation of a
string list is unique and any correct sort — Python's timsort as much as
this insertion sort — produces it. -/
def pySorted (l : List String) : List String :=
  List.insertionSort pyStrLe l

/-- `generate_options`: the static options followed by
`sorted(option_format.format(resource, hex_value) ...)` — Python sorts
the *formatted strings* lexicographically by code point. -/
def generateOptions (tbl : List (String × String)) (lines : List String)
    (options : List String) (fmt : String → String → String) :
    Except GenError (List String) :=
  match genColors tbl lines with
  | .error e => .error e
  | .ok m =>
    .ok (options ++ pySorted (m.map (fun p => fmt p.1 p.2)))

/-- The template `'URxvt*{0}: #{1}'`. -/
def urxvtFmt (resource hex : String) : String :=
  "URxvt*" ++ resource ++ ": #" ++ hex

/-- The template `'xterm*{0}: #{1}'`. -/
def xtermFmt (resource hex : String) : String :=
  "xterm*" ++ resource ++ ": #" ++ hex

/-- The template `'{0}=#{1}'`. -/
def kittyFmt (resource hex : String) : String :=
  resource ++ "=#" ++ hex

/-!
## Order properties of `pyStrLe`
-/

theorem lexLeCh_total : ∀ a b, lexLeCh a b = true ∨ lexLeCh b a = true
  | [], _ => by left; rfl
  | _ :: _, [] => by right; rfl
  | a :: as, b :: bs => by
    by_cases h1 : a.toNat < b.toNat
    · left; simp [lexLeCh, h1]
    · by_cases h2 : b.toNat < a.toNat
      · right; simp [lexLeCh, h1, h2]
      · rcases lexLeCh_total as bs with h | h
        · left; simp [lexLeCh, h1, h2, h]
        · right; simp [lexLeCh, h1, h2, h]

theorem lexLeCh_trans : ∀ a b c, lexLeCh a b = true → lexLeCh b c = true →
    lexLeCh a c = true
  | [], _, _, _, _ => rfl
  | _ :: _, [], _, hab, _ => by simp [lexLeCh] at hab
  | _ :: _, _ :: _, [], _, hbc => by simp [lexLeCh] at hbc
  | a :: as, b :: bs, c :: cs, hab, hbc => by
    simp only [lexLeCh] at hab hbc ⊢
    rcases Nat.lt_trichotomy a.toNat b.toNat with h1 | h1 | h1
    · rcases Nat.lt_trichotomy b.toNat c.toNat with h2 | h2 | h2
      · simp [show a.toNat < c.toNat by omega]
      · simp [show a.toNat < c.toNat by omega]
      · simp [show ¬ b.toNat < c.toNat by omega, h2] at hbc
    · simp only [show ¬ a.toNat < b.toNat by omega,
        show ¬ b.toNat < a.toNat by omega, if_false] at hab
      rcases Nat.lt_trichotomy b.toNat c.toNat with h2 | h2 | h2
      · simp [show a.toNat < c.toNat by omega]
      · simp only [show ¬ b.toNat < c.toNat by omega,
          show ¬ c.toNat < b.toNat by omega, if_false] at hbc
        simp only [show ¬ a.toNat < c.toNat by omega,
          show ¬ c.toNat < a.toNat by omega, if_false]
        exact lexLeCh_trans as bs cs hab hbc
      · simp [show ¬ b.toNat < c.toNat by omega, h2] at hbc
    · simp [show ¬ a.toNat < b.toNat by omega, h1] at hab

instance : IsTotal String pyStrLe :=
  ⟨fun a b => lexLeCh_total a.toList b.toList⟩

instance : IsTrans String pyStrLe :=
  ⟨fun a b c => lexLeCh_trans a.toList b.toList c.toList⟩

/-!
## Exactness of the `sqrt _ < 10.0` threshold
-/

/-- The squared distance is a natural number, so the float comparison
`math.sqrt S < 10.0` is exactly `S < 100`. -/
theorem sqrt_lt_ten_iff (n : ℕ) : Real.sqrt n < 10 ↔ n < 100 := by
  rw [Real.sqrt_lt' (by norm_num : (0 : ℝ) < 10),
    show ((10 : ℝ) ^ 2 = ((100 : ℕ) : ℝ)) by norm_num]
  exact Nat.cast_lt

/-!
## Structural lemmas about extraction and finalization
-/

theorem lookup_mem {α β : Type} [BEq α] [LawfulBEq α]
    {l : List (α × β)} {k : α} {v : β}
    (h : l.lookup k = some v) : (k, v) ∈ l := by
  induction l with
  | nil => simp [List.lookup] at h
  | cons p rest ih =>
    rcases p with ⟨a, b⟩
    by_cases hk : k = a
    · subst hk
      simp [List.lookup] at h
      subst h
      exact List.mem_cons_self _ _
    · have hne : (k == a) = false := beq_eq_false_iff_ne.mpr hk
      rw [List.lookup, hne] at h
      exact List.mem_cons_of_mem _ (ih h)

theorem exceptMap_ok {ε α β : Type} {f : α → β} {x : Except ε α} {y : β}
    (h : Except.map f x = .ok y) : ∃ a, x = .ok a ∧ f a = y := by
  cases x with
  | error e => simp [Except.map] at h
  | ok a =>
    refine ⟨a, rfl, ?_⟩
    simpa [Except.map] using h

/-- Every error raised during the extraction pass is an `invalid hex`. -/
theorem resolveColor_error {tbl : List (String × String)} {v : String}
    {e : GenError} (h : resolveColor tbl v = .error e) : e = .invalidHex v := by
  rw [resolveColor] at h
  cases hl : tbl.lookup v with
  | some hx => rw [hl] at h; cases h
  | none =>
    rw [hl] at h
    by_cases hfb : v = "fg" ∨ v = "bg"
    · rw [if_pos hfb] at h; cases h
    · rw [if_neg hfb] at h
      cases hm : hexMatch v with
      | some hx => rw [hm] at h; cases h
      | none => rw [hm] at h; cases h; rfl

theorem extractList_cons_none {tbl : List (String × String)}
    {lines : List String} {m : String × String × String}
    {rest : List (String × String × String)}
    (h : extractSlot lines m.2.1 m.2.2 = none) :
    extractList tbl lines (m :: rest) = extractList tbl lines rest := by
  rw [extractList, h]

theorem extractList_cons_some {tbl : List (String × String)}
    {lines : List String} {m : String × String × String}
    {rest : List (String × String × String)} {raw : String}
    (h : extractSlot lines m.2.1 m.2.2 = some raw) :
    extractList tbl lines (m :: rest) =
      match resolveColor tbl (pyLower raw) with
      | .error e => .error e
      | .ok v => (extractList tbl lines rest).map (fun rs => (m.1, v) :: rs) := by
  rw [extractList, h]

/-- A slot name that occurs nowhere in the mappings list is absent from
an extraction result. -/
theorem extractList_lookup_none {tbl : List (String × String)}
    {lines : List String} {s : String} :
    ∀ {ms : List (String × String × String)} {rs : List (String × String)},
    extractList tbl lines ms = .ok rs → (∀ p ∈ ms, p.1 ≠ s) →
    rs.lookup s = none
  | [], rs, h, _ => by
    cases h; rfl
  | m :: rest, rs, h, hne => by
    cases hslot : extractSlot lines m.2.1 m.2.2 with
    | none =>
      rw [extractList_cons_none hslot] at h
      exact extractList_lookup_none h (fun p hp => hne p (List.mem_cons_of_mem _ hp))
    | some raw =>
      rw [extractList_cons_some hslot] at h
      cases hres : resolveColor tbl (pyLower raw) with
      | error e => simp only [hres] at h; exact Except.noConfusion h
      | ok v =>
        simp only [hres] at h
        obtain ⟨rs', hrest, hcons⟩ := exceptMap_ok h
        subst hcons
        have hm1 : (s == m.1) = false :=
          beq_eq_false_iff_ne.mpr (fun hs => hne m (List.mem_cons_self _ _) hs.symm)
        rw [List.lookup, hm1]
        exact extractList_lookup_none hrest (fun p hp => hne p (List.mem_cons_of_mem _ hp))

/-- The value an extraction result holds for slot `s`: the resolved first
match of `s`'s pattern, provided every occurrence of `s` in the mappings
list carries that same pattern. -/
theorem extractList_lookup {tbl : List (String × String)}
    {lines : List String} {s kw key : String} :
    ∀ {ms : List (String × String × String)} {rs : List (String × String)},
    extractList tbl lines ms = .ok rs → (s, kw, key) ∈ ms →
    (∀ p ∈ ms, p.1 = s → p.2 = (kw, key)) →
    rs.lookup s =
      (extractSlot lines kw key).bind
        (fun raw => (resolveColor tbl (pyLower raw)).toOption)
  | [], _, _, hmem, _ => absurd hmem (List.not_mem_nil _)
  | m :: rest, rs, h, hmem, huniq => by
    by_cases hs : m.1 = s
    · have hpat : m.2 = (kw, key) := huniq m (List.mem_cons_self _ _) hs
      have hkw : m.2.1 = kw := by rw [hpat]
      have hkey : m.2.2 = key := by rw [hpat]
      cases hslot : extractSlot lines kw key with
      | none =>
        rw [extractList_cons_none (by rw [hkw, hkey]; exact hslot)] at h
        rw [Option.none_bind]
        by_cases hrest : ∃ p ∈ rest, p.1 = s
        · obtain ⟨p, hp, hps⟩ := hrest
          have hppat : p.2 = (kw, key) :=
            huniq p (List.mem_cons_of_mem _ hp) hps
          have hpmem : (s, kw, key) ∈ rest := by
            have hpe : p = (s, kw, key) := by
              rcases p with ⟨p1, p2⟩
              simp only at hps hppat
              rw [hps, hppat]
            rwa [hpe] at hp
          rw [extractList_lookup h hpmem
            (fun q hq hqs => huniq q (List.mem_cons_of_mem _ hq) hqs), hslot,
            Option.none_bind]
        · push_neg at hrest
          exact extractList_lookup_none h hrest
      | some raw =>
        rw [extractList_cons_some (by rw [hkw, hkey]; exact hslot)] at h
        cases hres : resolveColor tbl (pyLower raw) with
        | error e => simp only [hres] at h; exact Except.noConfusion h
        | ok v =>
          simp only [hres] at h
          obtain ⟨rs', hrest, hcons⟩ := exceptMap_ok h
          subst hcons
          have hm1 : (s == m.1) = true := beq_iff_eq.mpr hs.symm
          rw [List.lookup, hm1, Option.some_bind, hres]
          rfl
    · have hmem' : (s, kw, key) ∈ rest := by
        rcases List.mem_cons.mp hmem with heq | h'
        · exact absurd (congrArg Prod.fst heq.symm) hs
        · exact h'
      have huniq' : ∀ p ∈ rest, p.1 = s → p.2 = (kw, key) :=
        fun p hp hps => huniq p (List.mem_cons_of_mem _ hp) hps
      cases hslot : extractSlot lines m.2.1 m.2.2 with
      | none =>
        rw [extractList_cons_none hslot] at h
        exact extractList_lookup h hmem' huniq'
      | some raw =>
        rw [extractList_cons_some hslot] at h
        cases hres : resolveColor tbl (pyLower raw) with
        | error e => simp only [hres] at h; exact Except.noConfusion h
        | ok v =>
          simp only [hres] at h
          obtain ⟨rs', hrest, hcons⟩ := exceptMap_ok h
          subst hcons
          have hm1 : (s == m.1) = false :=
            beq_eq_false_iff_ne.mpr (fun h' => hs h'.symm)
          rw [List.lookup, hm1]
          exact extractList_lookup hrest hmem' huniq'

theorem adjustEntries_cons_err {bc fc : String} {p : String × String}
    {rest : List (String × String)} {e : GenError}
    (h : adjustVal bc fc p.1 p.2 = .error e) :
    adjustEntries bc fc (p :: rest) = .error e := by
  rw [adjustEntries, h]

theorem adjustEntries_cons_ok {bc fc : String} {p : String × String}
    {rest : List (String × String)} {v : String}
    (h : adjustVal bc fc p.1 p.2 = .ok v) :
    adjustEntries bc fc (p :: rest) =
      (adjustEntries bc fc rest).map (fun m => (p.1, v) :: m) := by
  rw [adjustEntries, h]

/-- The finalization loop is a pointwise rewrite: the final value of slot
`s` is the adjustment of its pre-loop value. -/
theorem adjustEntries_lookup {bc fc s : String} :
    ∀ {rs m : List (String × String)},
    adjustEntries bc fc rs = .ok m →
    m.lookup s = (rs.lookup s).bind (fun c => (adjustVal bc fc s c).toOption)
  | [], m, h => by cases h; rfl
  | p :: rest, m, h => by
    cases hadj : adjustVal bc fc p.1 p.2 with
    | error e =>
      rw [adjustEntries_cons_err hadj] at h
      exact Except.noConfusion h
    | ok v =>
      rw [adjustEntries_cons_ok hadj] at h
      obtain ⟨m', hrest, hcons⟩ := exceptMap_ok h
      subst hcons
      by_cases hps : s = p.1
      · have hbeq : (s == p.1) = true := beq_iff_eq.mpr hps
        rcases p with ⟨k, c⟩
        rw [List.lookup, hbeq, List.lookup, hbeq, Option.some_bind]
        simp only at hps
        subst hps
        rw [hadj]
        rfl
      · have hbeq : (s == p.1) = false := beq_eq_false_iff_ne.mpr hps
        rcases p with ⟨k, c⟩
        rw [List.lookup, hbeq, List.lookup, hbeq]
        exact adjustEntries_lookup hrest

/-- If the finalization loop completed, each visited entry's adjustment
succeeded. -/
theorem adjustEntries_ok_mem {bc fc : String} :
    ∀ {rs m : List (String × String)} {k c : String},
    adjustEntries bc fc rs = .ok m → (k, c) ∈ rs →
    ∃ v, adjustVal bc fc k c = .ok v
  | [], _, _, _, _, hmem => absurd hmem (List.not_mem_nil _)
  | p :: rest, m, k, c, h, hmem => by
    cases hadj : adjustVal bc fc p.1 p.2 with
    | error e =>
      rw [adjustEntries_cons_err hadj] at h
      exact Except.noConfusion h
    | ok v =>
      rw [adjustEntries_cons_ok hadj] at h
      obtain ⟨m', hrest, _⟩ := exceptMap_ok h
      rcases List.mem_cons.mp hmem with heq | hmem'
      · subst heq; exact ⟨v, hadj⟩
      · exact adjustEntries_ok_mem hrest hmem'

theorem finalizeColors_ok_elim {rs m : List (String × String)}
    (h : finalizeColors rs = .ok m) :
    ∃ bc fc, rs.lookup "background" = some bc ∧
      rs.lookup "foreground" = some fc ∧ adjustEntries bc fc rs = .ok m := by
  rw [finalizeColors] at h
  cases hb : rs.lookup "background" with
  | none => rw [hb] at h; exact Except.noConfusion h
  | some bc =>
    rw [hb] at h
    cases hf : rs.lookup "foreground" with
    | none => rw [hf] at h; exact Except.noConfusion h
    | some fc =>
      rw [hf] at h
      cases ha : adjustEntries bc fc rs with
      | error e => simp only [ha] at h; exact Except.noConfusion h
      | ok m0 =>
        simp only [ha] at h
        by_cases hemp : m0.isEmpty
        · rw [if_pos hemp] at h; exact Except.noConfusion h
        · rw [if_neg hemp] at h
          cases h
          exact ⟨bc, fc, rfl, rfl, ha⟩

/-- The final value of slot `s` under a successful finalization. -/
theorem finalizeColors_lookup {rs m : List (String × String)}
    {bc fc s : String}
    (h : finalizeColors rs = .ok m)
    (hb : rs.lookup "background" = some bc)
    (hf : rs.lookup "foreground" = some fc) :
    m.lookup s = (rs.lookup s).bind (fun c => (adjustVal bc fc s c).toOption) := by
  obtain ⟨bc', fc', hb', hf', ha⟩ := finalizeColors_ok_elim h
  rw [hb] at hb'; rw [hf] at hf'
  cases hb'; cases hf'
  exact adjustEntries_lookup ha

/-- `adjustVal` ignores the slot name except for the `background` test. -/
theorem adjustVal_resource_irrel {bc fc r1 r2 c : String}
    (h1 : r1 ≠ "background") (h2 : r2 ≠ "background") :
    adjustVal bc fc r1 c = adjustVal bc fc r2 c := by
  by_cases hfg : c = "fg"
  · rw [adjustVal, adjustVal, if_pos hfg, if_pos hfg]
  · by_cases hbg : c = "bg"
    · rw [adjustVal, adjustVal, if_neg hfg, if_neg hfg, if_pos hbg, if_pos hbg]
    · rw [adjustVal, adjustVal, if_neg hfg, if_neg hfg, if_neg hbg, if_neg hbg,
        if_pos h1, if_pos h2]

/-- A successful adjustment of a non-deferred value yields the foreground
value or the value itself. -/
theorem adjustVal_ok_cases {bc fc r c v : String}
    (h : adjustVal bc fc r c = .ok v) (h1 : c ≠ "fg") (h2 : c ≠ "bg") :
    v = fc ∨ v = c := by
  rw [adjustVal, if_neg h1, if_neg h2] at h
  by_cases hr : r ≠ "background"
  · rw [if_pos hr] at h
    cases hd : colorDistSq c bc with
    | none => rw [hd] at h; exact Except.noConfusion h
    | some d =>
      rw [hd] at h
      cases h
      by_cases hlt : d < 100
      · left; rw [if_pos hlt]
      · right; rw [if_neg hlt]
  · rw [if_neg hr] at h
    cases h
    right; rfl

/-- Every failure of the extraction pass is an `invalid hex` exception. -/
theorem extractList_error_invalidHex {tbl : List (String × String)}
    {lines : List String} :
    ∀ {ms : List (String × String × String)} {e : GenError},
    extractList tbl lines ms = .error e → ∃ v, e = .invalidHex v
  | [], _, h => Except.noConfusion h
  | m :: rest, e, h => by
    cases hslot : extractSlot lines m.2.1 m.2.2 with
    | none =>
      rw [extractList_cons_none hslot] at h
      exact extractList_error_invalidHex h
    | some raw =>
      rw [extractList_cons_some hslot] at h
      cases hres : resolveColor tbl (pyLower raw) with
      | error e0 =>
        simp only [hres] at h
        cases h
        exact ⟨pyLower raw, resolveColor_error hres⟩
      | ok v =>
        simp only [hres] at h
        cases hrest : extractList tbl lines rest with
        | error e1 =>
          rw [hrest] at h
          cases h
          exact extractList_error_invalidHex hrest
        | ok rs => rw [hrest] at h; exact Except.noConfusion h

/-- If some slot's first match fails to resolve, the whole extraction
pass fails. -/
theorem extractList_error_of_bad {tbl : List (String × String)}
    {lines : List String} {s kw key raw : String} {e0 : GenError} :
    ∀ {ms : List (String × String × String)},
    (s, kw, key) ∈ ms → extractSlot lines kw key = some raw →
    resolveColor tbl (pyLower raw) = .error e0 →
    ∃ e, extractList tbl lines ms = .error e
  | [], hmem, _, _ => absurd hmem (List.not_mem_nil _)
  | m :: rest, hmem, hslot, hres => by
    cases hslot' : extractSlot lines m.2.1 m.2.2 with
    | none =>
      rw [extractList_cons_none hslot']
      rcases List.mem_cons.mp hmem with heq | hmem'
      · subst heq
        simp only at hslot'
        rw [hslot] at hslot'
        exact Option.noConfusion hslot'
      · exact extractList_error_of_bad hmem' hslot hres
    | some raw' =>
      rw [extractList_cons_some hslot']
      cases hres' : resolveColor tbl (pyLower raw') with
      | error e1 => exact ⟨e1, rfl⟩
      | ok v =>
        rcases List.mem_cons.mp hmem with heq | hmem'
        · subst heq
          simp only at hslot'
          rw [hslot] at hslot'
          cases hslot'
          rw [hres] at hres'
          exact Except.noConfusion hres'
        · obtain ⟨e, he⟩ := extractList_error_of_bad hmem' hslot hres
          rw [he]
          exact ⟨e, rfl⟩

theorem genColors_ok_elim {tbl : List (String × String)} {lines : List String}
    {m : List (String × String)} (h : genColors tbl lines = .ok m) :
    ∃ rs, extract tbl lines = .ok rs ∧ finalizeColors rs = .ok m := by
  rw [genColors] at h
  cases he : extract tbl lines with
  | error e => rw [he] at h; exact Except.noConfusion h
  | ok rs => rw [he] at h; exact ⟨rs, rfl, h⟩

theorem generateOptions_ok_elim {tbl : List (String × String)}
    {lines : List String} {options l : List String}
    {fmt : String → String → String}
    (h : generateOptions tbl lines options fmt = .ok l) :
    ∃ m, genColors tbl lines = .ok m ∧
      l = options ++ pySorted (m.map (fun p => fmt p.1 p.2)) := by
  rw [generateOptions] at h
  cases hg : genColors tbl lines with
  | error e => rw [hg] at h; exact Except.noConfusion h
  | ok m =>
    rw [hg] at h
    cases h
    exact ⟨m, rfl, rfl⟩

/-!
## The claims
-/

/-- C1: In the finalizer, for every resolved slot other than the
background slot whose value is a direct hex color (not a deferred fg/bg
marker), if the perceptual color distance between the slot's color and
the background color is strictly below 10.0 the slot's value is replaced
by the foreground value, and if the distance is 10.0 or greater the
slot's value is left unchanged. -/
theorem c1_contrast_replacement
    (rs m : List (String × String)) (bc fc s c : String) (d : Nat)
    (hfin : finalizeColors rs = .ok m)
    (hb : rs.lookup "background" = some bc)
    (hf : rs.lookup "foreground" = some fc)
    (hs : rs.lookup s = some c)
    (hsb : s ≠ "background") (hc1 : c ≠ "fg") (hc2 : c ≠ "bg")
    (hd : colorDistSq c bc = some d) :
    (Real.sqrt d < 10 → m.lookup s = some fc) ∧
    (10 ≤ Real.sqrt d → m.lookup s = some c) := by
  have hlk := finalizeColors_lookup (s := s) hfin hb hf
  rw [hs, Option.some_bind, adjustVal, if_neg hc1, if_neg hc2, if_pos hsb] at hlk
  simp only [hd] at hlk
  constructor
  · intro hlt
    have hn : d < 100 := (sqrt_lt_ten_iff d).mp hlt
    rw [if_pos hn] at hlk
    exact hlk
  · intro hge
    have hn : ¬ d < 100 := fun hlt =>
      absurd ((sqrt_lt_ten_iff d).mpr hlt) (not_lt.mpr hge)
    rw [if_neg hn] at hlk
    exact hlk

/-- Witness for C1: on the mapping
`{foreground ↦ ffffff, background ↦ 000000, color0 ↦ 010101,
color1 ↦ 888888}` the finalizer replaces `color0` (squared distance `8`,
`√8 < 10`) with the foreground and leaves `color1` (squared distance
`166391`, `√166391 ≥ 10`) unchanged. -/
theorem c1_contrast_replacement_witness :
    List.lookup "color0" [("foreground", "ffffff"), ("background", "000000"),
      ("color0", "ffffff"), ("color1", "888888")] = some "ffffff" ∧
    List.lookup "color1" [("foreground", "ffffff"), ("background", "000000"),
      ("color0", "ffffff"), ("color1", "888888")] = some "888888" := by
  constructor
  · exact (c1_contrast_replacement
      [("foreground", "ffffff"), ("background", "000000"),
        ("color0", "010101"), ("color1", "888888")]
      [("foreground", "ffffff"), ("background", "000000"),
        ("color0", "ffffff"), ("color1", "888888")]
      "000000" "ffffff" "color0" "010101" 8
      rfl (by decide) (by decide) (by decide) (by decide) (by decide)
      (by decide) (by decide)).1
      ((sqrt_lt_ten_iff 8).mpr (by norm_num))
  · exact (c1_contrast_replacement
      [("foreground", "ffffff"), ("background", "000000"),
        ("color0", "010101"), ("color1", "888888")]
      [("foreground", "ffffff"), ("background", "000000"),
        ("color0", "ffffff"), ("color1", "888888")]
      "000000" "ffffff" "color1" "888888" 166391
      rfl (by decide) (by decide) (by decide) (by decide) (by decide)
      (by decide) (by decide)).2
      (not_lt.mp (fun hlt => by
        have := (sqrt_lt_ten_iff 166391).mp hlt
        omega))

/-- C3 (code divergence): the claim says that a deferred `fg`/`bg`
marker in the foreground or background slot makes finalization fail with
a "missing foreground/background" error and produce no output.  In the
code the guard `if background_color is None or foreground_color is None`
can never fire (dict values are strings), so on the theme file
`Normal guifg=fg guibg=bg` the attempt *succeeds* and emits the literal
marker strings as colors. -/
theorem c3_deferred_markers_not_rejected :
    genColors [] ["Normal guifg=fg guibg=bg"] =
      .ok [("foreground", "fg"), ("background", "bg")] ∧
    generateOptions [] ["Normal guifg=fg guibg=bg"] [] kittyFmt =
      .ok ["background=#bg", "foreground=#fg"] :=
  ⟨rfl, rfl⟩

/-- C8 (code divergence): the claim says an empty resolved-color mapping
fails with an "invalid format" error.  In the code the lookup
`resource_hex_values['background']` raises `KeyError` first, so the
`raise Exception('invalid format')` line is unreachable: on a theme file
matching no slot pattern the attempt fails with the KeyError. -/
theorem c8_empty_mapping_keyerror :
    extract [] ["this line matches no slot pattern"] = .ok [] ∧
    genColors [] ["this line matches no slot pattern"] =
      .error (.keyError "background") ∧
    generateOptions [] ["this line matches no slot pattern"] [] kittyFmt =
      .error (.keyError "background") ∧
    GenError.keyError "background" ≠ GenError.invalidFormat :=
  ⟨rfl, rfl, rfl, by decide⟩

/-- Counterexample for C7: the claim says the distance between
`#010101` and background `#000000` is approximately `1.9`; the computed
squared distance is `8`, whose square root `2.828…` differs from `1.9`
by more than `0.9`. -/
theorem c7_distance_counterexample :
    colorDistSq "010101" "000000" = some 8 ∧
    (0.9 : ℝ) < |Real.sqrt 8 - 1.9| := by
  refine ⟨by decide, ?_⟩
  have h1 : (2.82 : ℝ) < Real.sqrt 8 := by
    rw [Real.lt_sqrt (by norm_num : (0 : ℝ) ≤ 2.82)]
    norm_num
  have h2 : (0 : ℝ) ≤ Real.sqrt 8 - 1.9 := by nlinarith
  rw [abs_of_nonneg h2]
  nlinarith

/-- C7 (amended): the perceptual distance is a weighted Euclidean
distance in RGB space — the green term weighted at 4×, the red and blue
terms weighted by functions of the mean red value (`512 + rmean` and
`767 - rmean`, divided by 256) — and for background `#000000` and
candidate slot color `#010101` the computed squared distance is `8`, so
the distance is `√8 ≈ 2.83` (not `≈ 1.9`), which is below the `10.0`
threshold, so the slot is replaced with the foreground. -/
theorem c7_distance_amended (a b : String) (a0 a1 a2 b0 b1 b2 : Nat)
    (ha0 : pyIntHex (slice2 a.toList 0) = some a0)
    (ha1 : pyIntHex (slice2 a.toList 2) = some a1)
    (ha2 : pyIntHex (slice2 a.toList 4) = some a2)
    (hb0 : pyIntHex (slice2 b.toList 0) = some b0)
    (hb1 : pyIntHex (slice2 b.toList 2) = some b1)
    (hb2 : pyIntHex (slice2 b.toList 4) = some b2) :
    colorDistSq a b =
      some ((512 + (a0 + b0) / 2) * ((a0 : Int) - b0).natAbs ^ 2 / 256 +
        4 * ((a1 : Int) - b1).natAbs ^ 2 +
        (767 - (a0 + b0 + 1) / 2) * ((a2 : Int) - b2).natAbs ^ 2 / 256) ∧
    colorDistSq "010101" "000000" = some 8 ∧
    (2.82 : ℝ) < Real.sqrt 8 ∧ Real.sqrt 8 < 2.83 ∧ Real.sqrt 8 < 10 ∧
    adjustVal "000000" "eeeeee" "color1" "010101" = .ok "eeeeee" := by
  refine ⟨?_, by decide, ?_, ?_, ?_, rfl⟩
  · rw [colorDistSq]
    simp only [ha0, ha1, ha2, hb0, hb1, hb2]
  · rw [Real.lt_sqrt (by norm_num : (0 : ℝ) ≤ 2.82)]
    norm_num
  · rw [Real.sqrt_lt' (by norm_num : (0 : ℝ) < 2.83)]
    norm_num
  · rw [Real.sqrt_lt' (by norm_num : (0 : ℝ) < 10)]
    norm_num

/-- Witness for C7 (amended), instantiated at `#010101` / `#000000`. -/
theorem c7_distance_amended_witness :
    colorDistSq "010101" "000000" =
      some ((512 + (1 + 0) / 2) * ((1 : Int) - 0).natAbs ^ 2 / 256 +
        4 * ((1 : Int) - 0).natAbs ^ 2 +
        (767 - (1 + 0 + 1) / 2) * ((1 : Int) - 0).natAbs ^ 2 / 256) :=
  (c7_distance_amended "010101" "000000" 1 1 1 0 0 0
    (by decide) (by decide) (by decide) (by decide) (by decide) (by decide)).1

set_option maxRecDepth 8192 in
/-- C2: for every resource line matching `<int> <int> <int> <name>`
(with first integer in the byte range, so that its hex rendering has two
digits), the loader records `name.lower()` mapped to the 2-digit hex
rendering of the *first* captured integer repeated for all three
channels — a 6-character string; in particular `255 0 0 red` maps
`"red"` to `"ffffff"`, not `"ff0000"`. -/
theorem c2_loader_grayscale :
    (∀ (tbl : List (String × String)) (line : String) (r g b : Nat)
        (name : String),
      parseRgbLine line = some (r, g, b, name) → r ≤ 255 →
      (loadStep tbl line).lookup (pyLower name) =
          some (pyHex2 r ++ pyHex2 r ++ pyHex2 r) ∧
        (pyHex2 r ++ pyHex2 r ++ pyHex2 r).length = 6) ∧
    (loadVimNamedColors ["255 0 0 red"]).lookup "red" = some "ffffff" ∧
    ("ffffff" : String) ≠ "ff0000" := by
  refine ⟨?_, by decide, by decide⟩
  intro tbl line r g b name hp hr
  have hlen6 : ∀ r' < 256, (tripleHex r').length = 6 := by decide
  constructor
  · simp only [loadStep, hp]
    have hself : (pyLower name == pyLower name) = true := beq_self_eq_true _
    rw [List.lookup, hself]
    rfl
  · exact hlen6 r (by omega)

/-- Witness for C2 at the record `255 0 0 red`. -/
theorem c2_loader_grayscale_witness :
    (loadStep [] "255 0 0 red").lookup (pyLower "red") =
      some (pyHex2 255 ++ pyHex2 255 ++ pyHex2 255) :=
  (c2_loader_grayscale.1 [] "255 0 0 red" 255 0 0 "red"
    (by decide) (by decide)).1

/-- C4: resolution of a captured color reference proceeds in order:
named-color lookup of the lowercased reference, then the deferred
`fg`/`bg` markers, then a `#`-prefixed 6-hex-digit match, else the whole
attempt fails with an invalid-color-reference error. -/
theorem c4_resolution_order (tbl : List (String × String)) (raw : String) :
    (∀ h, tbl.lookup (pyLower raw) = some h →
      resolveColor tbl (pyLower raw) = .ok h) ∧
    (tbl.lookup (pyLower raw) = none →
      (pyLower raw = "fg" ∨ pyLower raw = "bg") →
      resolveColor tbl (pyLower raw) = .ok (pyLower raw)) ∧
    (tbl.lookup (pyLower raw) = none → pyLower raw ≠ "fg" →
      pyLower raw ≠ "bg" → ∀ h, hexMatch (pyLower raw) = some h →
      resolveColor tbl (pyLower raw) = .ok h) ∧
    (tbl.lookup (pyLower raw) = none → pyLower raw ≠ "fg" →
      pyLower raw ≠ "bg" → hexMatch (pyLower raw) = none →
      resolveColor tbl (pyLower raw) = .error (.invalidHex (pyLower raw)) ∧
      ∀ lines s kw key, (s, kw, key) ∈ MAPPINGS →
        extractSlot lines kw key = some raw →
        ∃ e v, extract tbl lines = .error e ∧ e = .invalidHex v) := by
  refine ⟨?_, ?_, ?_, ?_⟩
  · intro h hl
    simp only [resolveColor, hl]
  · intro hl hfb
    simp only [resolveColor, hl, if_pos hfb]
  · intro hl h1 h2 h hm
    simp only [resolveColor, hl, if_neg (not_or.mpr ⟨h1, h2⟩), hm]
  · intro hl h1 h2 hm
    have hres : resolveColor tbl (pyLower raw) =
        .error (.invalidHex (pyLower raw)) := by
      simp only [resolveColor, hl, if_neg (not_or.mpr ⟨h1, h2⟩), hm]
    refine ⟨hres, ?_⟩
    intro lines s kw key hmem hslot
    obtain ⟨e, he⟩ := extractList_error_of_bad hmem hslot hres
    obtain ⟨v, hv⟩ := extractList_error_invalidHex he
    exact ⟨e, v, he, hv⟩

/-- Witness for C4, exercising all four branches: a named color
(`RED` with a table binding for `red`), the deferred marker `FG`, a
direct hex literal `#AABBCC`, and the unresolvable `notacolor`, which
also makes a whole extraction attempt fail. -/
theorem c4_resolution_order_witness :
    resolveColor [("red", "ffffff")] (pyLower "RED") = .ok "ffffff" ∧
    resolveColor [] (pyLower "FG") = .ok (pyLower "FG") ∧
    resolveColor [] (pyLower "#AABBCC") = .ok "aabbcc" ∧
    resolveColor [] (pyLower "notacolor") =
      .error (.invalidHex (pyLower "notacolor")) ∧
    (∃ e v, extract [] ["Comment guifg=notacolor"] = .error e ∧
      e = GenError.invalidHex v) := by
  refine ⟨?_, ?_, ?_, ?_, ?_⟩
  · exact (c4_resolution_order [("red", "ffffff")] "RED").1 "ffffff" (by decide)
  · exact (c4_resolution_order [] "FG").2.1 (by decide) (Or.inl (by decide))
  · exact (c4_resolution_order [] "#AABBCC").2.2.1 (by decide) (by decide)
      (by decide) "aabbcc" (by decide)
  · exact ((c4_resolution_order [] "notacolor").2.2.2 (by decide) (by decide)
      (by decide) (by decide)).1
  · exact ((c4_resolution_order [] "notacolor").2.2.2 (by decide) (by decide)
      (by decide) (by decide)).2 ["Comment guifg=notacolor"] "color0" "Comment"
      "guifg=" (by decide) (by decide)

theorem hexMatch_mk (cs : List Char) :
    hexMatch (String.mk ('#' :: cs)) =
      if (cs.take 6).length = 6 && (cs.take 6).all isLowerHexCh then
        some (String.mk (cs.take 6))
      else none := rfl

/-- C10: a reference whose lowercased form is `#` + six hex digits +
extra word characters does not fail: the hex pattern matches as a
prefix, and the reference resolves to its first six hex digits. -/
theorem c10_hex_prefix_resolution (tbl : List (String × String))
    (raw : String) (d rest : List Char)
    (hlen : d.length = 6) (hhex : d.all isLowerHexCh = true)
    (hlow : pyLower raw = String.mk ('#' :: (d ++ rest)))
    (hl : tbl.lookup (pyLower raw) = none) :
    resolveColor tbl (pyLower raw) = .ok (String.mk d) := by
  have hlistlen : (pyLower raw).toList.length = 7 + rest.length := by
    rw [hlow]
    show ('#' :: (d ++ rest)).length = 7 + rest.length
    simp only [List.length_cons, List.length_append, hlen]
    omega
  have hne1 : pyLower raw ≠ "fg" := by
    intro he
    have h2 : ("fg" : String).toList.length = 2 := by decide
    rw [he, h2] at hlistlen
    omega
  have hne2 : pyLower raw ≠ "bg" := by
    intro he
    have h2 : ("bg" : String).toList.length = 2 := by decide
    rw [he, h2] at hlistlen
    omega
  have htake : (d ++ rest).take 6 = d := by
    rw [← hlen]
    exact List.take_left d rest
  have hm : hexMatch (pyLower raw) = some (String.mk d) := by
    rw [hlow, hexMatch_mk, htake]
    simp [hlen, hhex]
  simp only [resolveColor, hl, if_neg (not_or.mpr ⟨hne1, hne2⟩), hm]

/-- Witness for C10: the reference `#AABBCCDD` resolves to `aabbcc`. -/
theorem c10_hex_prefix_resolution_witness :
    resolveColor [] (pyLower "#AABBCCDD") =
      .ok (String.mk ['a', 'a', 'b', 'b', 'c', 'c']) :=
  c10_hex_prefix_resolution [] "#AABBCCDD"
    ['a', 'a', 'b', 'b', 'c', 'c'] ['d', 'd']
    (by decide) (by decide) (by decide) (by decide)

/-- Counterexample for C5: on the theme file
`Normal guifg=bg guibg=#aabbcc` / `Comment guifg=fg` the attempt
*succeeds*, the slot `color0`'s raw reference was `fg`, but its final
value is the literal string `bg` (the pre-loop foreground, itself a
deferred marker) while the foreground slot's final value is `aabbcc` —
so a slot referencing `fg` need not end with the foreground's final
value. -/
theorem c5_deferred_alias_counterexample :
    extractSlot ["Normal guifg=bg guibg=#aabbcc", "Comment guifg=fg"]
      "Comment" "guifg=" = some "fg" ∧
    genColors [] ["Normal guifg=bg guibg=#aabbcc", "Comment guifg=fg"] =
      .ok [("foreground", "aabbcc"), ("background", "aabbcc"),
        ("color0", "bg"), ("color8", "bg")] ∧
    generateOptions [] ["Normal guifg=bg guibg=#aabbcc", "Comment guifg=fg"]
      [] kittyFmt =
      .ok ["background=#aabbcc", "color0=#bg", "color8=#bg",
        "foreground=#aabbcc"] ∧
    ("bg" : String) ≠ "aabbcc" :=
  ⟨rfl, rfl, rfl, by decide⟩

/-- C5 (amended): in every successful attempt *whose foreground and
background slots hold direct hex values (not deferred markers)*, a slot
resolved to the deferred `fg` marker ends with exactly the foreground
slot's final value, and a slot resolved to the deferred `bg` marker ends
with exactly the background slot's final value (deferred slots are never
subjected to the contrast-distance replacement). -/
theorem c5_deferred_alias_amended (rs m : List (String × String))
    (bc fc s : String)
    (hfin : finalizeColors rs = .ok m)
    (hb : rs.lookup "background" = some bc)
    (hf : rs.lookup "foreground" = some fc)
    (hb1 : bc ≠ "fg") (hb2 : bc ≠ "bg") (hf1 : fc ≠ "fg") (hf2 : fc ≠ "bg") :
    (rs.lookup s = some "fg" →
      m.lookup s = some fc ∧ m.lookup "foreground" = some fc) ∧
    (rs.lookup s = some "bg" →
      m.lookup s = some bc ∧ m.lookup "background" = some bc) := by
  obtain ⟨bc', fc', hb', hf', ha⟩ := finalizeColors_ok_elim hfin
  have hbc : bc' = bc := Option.some.inj (hb'.symm.trans hb)
  have hfc : fc' = fc := Option.some.inj (hf'.symm.trans hf)
  rw [hbc, hfc] at ha
  have hmemf : ("foreground", fc) ∈ rs := lookup_mem hf
  obtain ⟨v, hv⟩ := adjustEntries_ok_mem ha hmemf
  have hveq : v = fc := by
    rcases adjustVal_ok_cases hv hf1 hf2 with h | h <;> exact h
  rw [hveq] at hv
  have hmf : m.lookup "foreground" = some fc := by
    have hlk := finalizeColors_lookup (s := "foreground") hfin hb hf
    rw [hf, Option.some_bind, hv] at hlk
    exact hlk
  have hmb : m.lookup "background" = some bc := by
    have hlk := finalizeColors_lookup (s := "background") hfin hb hf
    rw [hb, Option.some_bind] at hlk
    have hbadj : adjustVal bc fc "background" bc = .ok bc := by
      rw [adjustVal, if_neg hb1, if_neg hb2,
        if_neg (show ¬ ("background" ≠ "background") from fun hcon => hcon rfl)]
    rw [hbadj] at hlk
    exact hlk
  constructor
  · intro hsl
    have hlk := finalizeColors_lookup (s := s) hfin hb hf
    rw [hsl, Option.some_bind] at hlk
    have hadj : adjustVal bc fc s "fg" = .ok fc := by
      rw [adjustVal, if_pos rfl]
    rw [hadj] at hlk
    exact ⟨hlk, hmf⟩
  · intro hsl
    have hlk := finalizeColors_lookup (s := s) hfin hb hf
    rw [hsl, Option.some_bind] at hlk
    have hadj : adjustVal bc fc s "bg" = .ok bc := by
      rw [adjustVal, if_neg (show ("bg" : String) ≠ "fg" by decide), if_pos rfl]
    rw [hadj] at hlk
    exact ⟨hlk, hmb⟩

/-- Witness for C5 (amended) on the mapping
`{foreground ↦ ffffff, background ↦ 000000, color0 ↦ fg, color1 ↦ bg}`. -/
theorem c5_deferred_alias_witness :
    (List.lookup "color0" [("foreground", "ffffff"), ("background", "000000"),
        ("color0", "ffffff"), ("color1", "000000")] = some "ffffff" ∧
      List.lookup "foreground" [("foreground", "ffffff"),
        ("background", "000000"), ("color0", "ffffff"),
        ("color1", "000000")] = some "ffffff") ∧
    (List.lookup "color1" [("foreground", "ffffff"), ("background", "000000"),
        ("color0", "ffffff"), ("color1", "000000")] = some "000000" ∧
      List.lookup "background" [("foreground", "ffffff"),
        ("background", "000000"), ("color0", "ffffff"),
        ("color1", "000000")] = some "000000") := by
  constructor
  · exact (c5_deferred_alias_amended
      [("foreground", "ffffff"), ("background", "000000"),
        ("color0", "fg"), ("color1", "bg")]
      [("foreground", "ffffff"), ("background", "000000"),
        ("color0", "ffffff"), ("color1", "000000")]
      "000000" "ffffff" "color0" rfl (by decide) (by decide)
      (by decide) (by decide) (by decide) (by decide)).1 (by decide)
  · exact (c5_deferred_alias_amended
      [("foreground", "ffffff"), ("background", "000000"),
        ("color0", "fg"), ("color1", "bg")]
      [("foreground", "ffffff"), ("background", "000000"),
        ("color0", "ffffff"), ("color1", "000000")]
      "000000" "ffffff" "color1" rfl (by decide) (by decide)
      (by decide) (by decide) (by decide) (by decide)).2 (by decide)

/-- Counterexample for C6: on a theme file yielding both `color1` and
`color10`, the output places the `color10` line *before* the `color1`
line (Python sorts the formatted strings, and `0` < `=` in code points),
although `color1` precedes `color10` in slot-name lexicographic order —
so the output is not ordered lexicographically by slot name. -/
theorem c6_sorted_counterexample :
    generateOptions [] ["Normal guifg=#aaaaaa guibg=#bbbbbb",
      "ErrorMsg guifg=#cccccc", "Type guifg=#dddddd"] [] kittyFmt =
      .ok ["background=#bbbbbb", "color10=#dddddd", "color1=#cccccc",
        "color2=#dddddd", "color9=#cccccc", "foreground=#aaaaaa"] ∧
    pyStrLe "color1" "color10" ∧ ("color1" : String) ≠ "color10" :=
  ⟨rfl, by decide, by decide⟩

/-- C6 (amended): for every successful attempt the generated
color-configuration strings are appended after the static options and
are sorted lexicographically (by code point) *as whole formatted
strings* — which for these templates can place `color10` before
`color1` — and they are a permutation of the formatted finalized
slots, so their order never depends on the theme file's line order. -/
theorem c6_sorted_amended (tbl : List (String × String))
    (lines options l : List String) (fmt : String → String → String)
    (h : generateOptions tbl lines options fmt = .ok l) :
    ∃ m gen, genColors tbl lines = .ok m ∧ l = options ++ gen ∧
      List.Sorted pyStrLe gen ∧
      gen.Perm (m.map (fun p => fmt p.1 p.2)) := by
  obtain ⟨m, hg, hl⟩ := generateOptions_ok_elim h
  refine ⟨m, pySorted (m.map (fun p => fmt p.1 p.2)), hg, hl, ?_, ?_⟩
  · exact List.sorted_insertionSort pyStrLe _
  · exact List.perm_insertionSort pyStrLe _

/-- Witness for C6 (amended) on a concrete successful run. -/
theorem c6_sorted_amended_witness :
    ∃ m gen,
      genColors [] ["Normal guifg=#aaaaaa guibg=#bbbbbb",
        "ErrorMsg guifg=#cccccc", "Type guifg=#dddddd"] = .ok m ∧
      (["background=#bbbbbb", "color10=#dddddd", "color1=#cccccc",
        "color2=#dddddd", "color9=#cccccc", "foreground=#aaaaaa"] :
        List String) = [] ++ gen ∧
      List.Sorted pyStrLe gen ∧
      gen.Perm (m.map (fun p => kittyFmt p.1 p.2)) :=
  c6_sorted_amended [] ["Normal guifg=#aaaaaa guibg=#bbbbbb",
    "ErrorMsg guifg=#cccccc", "Type guifg=#dddddd"] []
    ["background=#bbbbbb", "color10=#dddddd", "color1=#cccccc",
     "color2=#dddddd", "color9=#cccccc", "foreground=#aaaaaa"] kittyFmt rfl

/-- C9: for every theme file and every `n < 8`, slots `color<n>` and
`color<n+8>` are extracted with identical patterns over the same file,
so in every successful finalized mapping `color<n+8>` is present exactly
when `color<n>` is, and the two always carry the same final value. -/
theorem c9_color_pairs (tbl : List (String × String)) (lines : List String)
    (n : Nat) (hn : n < 8) (m : List (String × String))
    (h : genColors tbl lines = .ok m) :
    m.lookup ("color" ++ Nat.repr n) =
      m.lookup ("color" ++ Nat.repr (n + 8)) := by
  obtain ⟨rs, hext, hfin⟩ := genColors_ok_elim h
  rw [extract] at hext
  obtain ⟨bc, fc, hb, hf, _⟩ := finalizeColors_ok_elim hfin
  have key : ∀ (s1 s2 kw kk : String),
      (s1, kw, kk) ∈ MAPPINGS → (s2, kw, kk) ∈ MAPPINGS →
      (∀ p ∈ MAPPINGS, p.1 = s1 → p.2 = (kw, kk)) →
      (∀ p ∈ MAPPINGS, p.1 = s2 → p.2 = (kw, kk)) →
      s1 ≠ "background" → s2 ≠ "background" →
      m.lookup s1 = m.lookup s2 := by
    intro s1 s2 kw kk h1 h2 hu1 hu2 hs1 hs2
    have e1 := extractList_lookup hext h1 hu1
    have e2 := extractList_lookup hext h2 hu2
    have f1 := finalizeColors_lookup (s := s1) hfin hb hf
    have f2 := finalizeColors_lookup (s := s2) hfin hb hf
    rw [f1, f2, e1, e2]
    cases hopt : (extractSlot lines kw kk).bind
        (fun raw => (resolveColor tbl (pyLower raw)).toOption) with
    | none => rfl
    | some c =>
      rw [Option.some_bind, Option.some_bind, adjustVal_resource_irrel hs1 hs2]
  interval_cases n
  · exact key _ _ "Comment" "guifg=" (by decide) (by decide) (by decide)
      (by decide) (by decide) (by decide)
  · exact key _ _ "ErrorMsg" "guifg=" (by decide) (by decide) (by decide)
      (by decide) (by decide) (by decide)
  · exact key _ _ "Type" "guifg=" (by decide) (by decide) (by decide)
      (by decide) (by decide) (by decide)
  · exact key _ _ "WarningMsg" "guifg=" (by decide) (by decide) (by decide)
      (by decide) (by decide) (by decide)
  · exact key _ _ "PreProc" "guifg=" (by decide) (by decide) (by decide)
      (by decide) (by decide) (by decide)
  · exact key _ _ "Special" "guifg=" (by decide) (by decide) (by decide)
      (by decide) (by decide) (by decide)
  · exact key _ _ "Search" "guifg=" (by decide) (by decide) (by decide)
      (by decide) (by decide) (by decide)
  · exact key _ _ "Todo" "guifg=" (by decide) (by decide) (by decide)
      (by decide) (by decide) (by decide)

/-- Witness for C9 at `n = 0` on a concrete successful run. -/
theorem c9_color_pairs_witness :
    List.lookup ("color" ++ Nat.repr 0)
      [("foreground", "aaaaaa"), ("background", "bbbbbb"),
        ("color0", "cccccc"), ("color8", "cccccc")] =
    List.lookup ("color" ++ Nat.repr (0 + 8))
      [("foreground", "aaaaaa"), ("background", "bbbbbb"),
        ("color0", "cccccc"), ("color8", "cccccc")] :=
  c9_color_pairs []
    ["Normal guifg=#aaaaaa guibg=#bbbbbb", "Comment guifg=#cccccc"]
    0 (by norm_num)
    [("foreground", "aaaaaa"), ("background", "bbbbbb"),
      ("color0", "cccccc"), ("color8", "cccccc")] rfl
